import Mathlib

/-!
Verification of the Gaugid SDK's connection/token lifecycle component
(TypeScript sources: the token-storage module, `utils.ts` OAuthFlow and
`types.ts` error parsing), via a shallow embedding in Lean.

Modelling conventions:
- JavaScript numbers that the component uses as epoch timestamps are
  modelled as `Int` (the code never relies on fractional values);
  the current time is carried in milliseconds (`Date.now()` granularity).
- JSON values are modelled by the inductive `Json` with integer numerics.
- Asynchronous file I/O is modelled by an explicit `Disk` state: the store
  file is `missing`, `corrupt` (present but `JSON.parse` throws), or
  `stored` with the parsed key-to-record object, modelled as an
  association list in insertion order (JavaScript object semantics).
- JavaScript truthiness checks in the source (`!tokenInfo.expiresAt`,
  `if (error)`, `value || fallback`) are modelled faithfully, including
  the fact that `0` and the empty string are falsy.
-/

set_option autoImplicit false

namespace Gaugid

/-- JSON values (numbers restricted to integers, which is all the
component manipulates). -/
inductive Json where
  | null
  | bool (b : Bool)
  | num (n : Int)
  | str (s : String)
  | arr (elems : List Json)
  | obj (fields : List (String × Json))

/-- First-match lookup in an association list, as JavaScript property
access `m[k]` on an object built by assignments (keys are unique there,
so first match is the match). -/
def lookupKey {α : Type} : List (String × α) → String → Option α
  | [], _ => none
  | (k1, v) :: rest, k => if k1 = k then some v else lookupKey rest k

/-- JavaScript `m[k] = v`: replace the value in place when the key is
present, append the pair otherwise. -/
def setKey {α : Type} : List (String × α) → String → α → List (String × α)
  | [], k, v => [(k, v)]
  | (k1, v1) :: rest, k, v =>
    if k1 = k then (k, v) :: rest else (k1, v1) :: setKey rest k v

/-- JavaScript `delete m[k]`: remove every entry under the key (a
JavaScript object holds at most one). -/
def eraseKey {α : Type} : List (String × α) → String → List (String × α)
  | [], _ => []
  | (k1, v) :: rest, k =>
    if k1 = k then eraseKey rest k else (k1, v) :: eraseKey rest k

/-- `ConnectionTokenInfo` from `types.ts`. In the TypeScript declaration
`scopes` is defaulted by the zod schema, but the storage layer reads raw
JSON from disk and guards with `tokenData.scopes || []`, so absence is
representable and is modelled with `Option`. `profiles` entries are
opaque records. -/
structure ConnectionTokenInfo where
  token : String
  expiresAt : Option Int
  scopes : Option (List String)
  connectionId : Option String
  userDid : Option String
  profiles : Option (List Json)

/-- The shape written to the store file by `saveToken`: the token info
fields plus the `savedAt` ISO timestamp string. -/
structure StoredRecord where
  token : String
  expiresAt : Option Int
  scopes : Option (List String)
  connectionId : Option String
  userDid : Option String
  profiles : Option (List Json)
  savedAt : String

/-- State of the token store file: absent, present but unparseable, or
present with a parsed connectionId-to-record object. -/
inductive Disk where
  | missing
  | corrupt
  | stored (tokens : List (String × StoredRecord))

namespace TokenStorage

/-- `loadTokens`: `{}` when `existsSync` is false; `JSON.parse` of the
content, with any exception caught, logged as a warning and turned into
`{}`. -/
def loadTokens : Disk → List (String × StoredRecord)
  | .missing => []
  | .corrupt => []
  | .stored tokens => tokens

/-- `saveTokens`: rewrite the whole file with the given object. -/
def saveTokens (tokens : List (String × StoredRecord)) : Disk :=
  .stored tokens

/-- `saveToken`: load the full map, assign the entry under
`connectionId` (all fields of `tokenInfo` plus a fresh `savedAt`), and
rewrite the file. `savedAt` is the `new Date().toISOString()` value,
passed explicitly here. -/
def saveToken (d : Disk) (connectionId : String) (tokenInfo : ConnectionTokenInfo)
    (savedAt : String) : Disk :=
  saveTokens (setKey (loadTokens d) connectionId
    { token := tokenInfo.token
      expiresAt := tokenInfo.expiresAt
      scopes := tokenInfo.scopes
      connectionId := tokenInfo.connectionId
      userDid := tokenInfo.userDid
      profiles := tokenInfo.profiles
      savedAt := savedAt })

/-- `getToken`: null when the key is absent, otherwise the stored fields
with `scopes` defaulted through `tokenData.scopes || []` (an absent
`scopes` yields `[]`; a present array, even empty, is truthy and kept). -/
def getToken (d : Disk) (connectionId : String) : Option ConnectionTokenInfo :=
  match lookupKey (loadTokens d) connectionId with
  | none => none
  | some r => some
    { token := r.token
      expiresAt := r.expiresAt
      scopes := some (r.scopes.getD [])
      connectionId := r.connectionId
      userDid := r.userDid
      profiles := r.profiles }

/-- `deleteToken`: load, `delete tokens[connectionId]`, rewrite. -/
def deleteToken (d : Disk) (connectionId : String) : Disk :=
  saveTokens (eraseKey (loadTokens d) connectionId)

/-- `listConnections`: `Object.keys` of the loaded map. -/
def listConnections (d : Disk) : List String :=
  (loadTokens d).map Prod.fst

/-- `isTokenExpired`: true when `getToken` is null or `expiresAt` is
falsy (absent or `0`); otherwise `now >= new Date(expiresAt * 1000)`,
with the current time `nowMs` in milliseconds. -/
def isTokenExpired (d : Disk) (nowMs : Nat) (connectionId : String) : Bool :=
  match getToken d connectionId with
  | none => true
  | some tokenInfo =>
    match tokenInfo.expiresAt with
    | none => true
    | some e =>
      if e = 0 then true
      else decide ((e * 1000 : Int) ≤ (nowMs : Int))

end TokenStorage

namespace ConnectionManager

/-- `getConnectionToken`: null when no record is stored or
`isTokenExpired` holds; otherwise the bare token string. -/
def getConnectionToken (d : Disk) (nowMs : Nat) (connectionId : String) : Option String :=
  match TokenStorage.getToken d connectionId with
  | none => none
  | some tokenInfo =>
    if TokenStorage.isTokenExpired d nowMs connectionId then none
    else some tokenInfo.token

end ConnectionManager

/-- Substring test, JavaScript `String.prototype.includes`. -/
def strIncludes (s sub : String) : Bool :=
  decide (sub.data <:+: s.data)

/-- The error taxonomy of `types.ts`: `GaugidAuthError`, `GaugidAPIError`
and `GaugidConnectionError` (each also carries an optional protocol code;
the API error additionally records the HTTP status; the raw response
payload and wrapped cause are not needed by any claim and are omitted). -/
inductive GaugidErr where
  | auth (message : String) (code : Option String)
  | api (message : String) (code : Option String) (statusCode : Nat)
  | conn (message : String)
deriving DecidableEq

def GaugidErr.message : GaugidErr → String
  | .auth m _ => m
  | .api m _ _ => m
  | .conn m => m

def GaugidErr.isAuth : GaugidErr → Bool
  | .auth _ _ => true
  | _ => false

def GaugidErr.isApi : GaugidErr → Bool
  | .api _ _ _ => true
  | _ => false

def GaugidErr.isConn : GaugidErr → Bool
  | .conn _ => true
  | _ => false

/-- `ERROR_CODES` from `types.ts`: protocol error codes and their
human-readable descriptions. -/
def ERROR_CODES : List (String × String) :=
  [("A2P000", "Internal server error"),
   ("A2P001", "Not authorized"),
   ("A2P002", "Invalid public key format"),
   ("A2P003", "Profile not found"),
   ("A2P006", "Invalid request"),
   ("A2P009", "User already exists"),
   ("A2P013", "Authenticated DID must match"),
   ("A2P014", "Service not found"),
   ("A2P015", "Invalid redirect_uri"),
   ("A2P016", "Invalid scopes"),
   ("A2P017", "Invalid authorization code"),
   ("A2P018", "Authorization code expired"),
   ("A2P019", "Invalid or expired connection token"),
   ("A2P020", "Connection has been revoked"),
   ("A2P021", "Connection token required"),
   ("A2P022", "Service DID mismatch"),
   ("A2P023", "Rate limit exceeded"),
   ("A2P024", "Export limit exceeded"),
   ("A2P025", "Import limit exceeded"),
   ("A2P026", "Data import completed with errors")]

/-- JavaScript truthiness of a JSON value. -/
def jsTruthy : Json → Bool
  | .null => false
  | .bool b => b
  | .num n => decide (n ≠ 0)
  | .str s => decide (s ≠ "")
  | .arr _ => true
  | .obj _ => true

mutual

/-- JavaScript `String(x)`, which is also the coercion a template
literal and the `Error` constructor apply to a non-string message:
primitives print themselves, arrays join their elements with commas
with null elements becoming empty, plain objects print
"[object Object]". -/
def jsToString : Json → String
  | .null => "null"
  | .bool b => if b then "true" else "false"
  | .num n => toString n
  | .str s => s
  | .arr xs => String.intercalate "," (jsToStringList xs)
  | .obj _ => "[object Object]"

def jsToStringList : List Json → List String
  | [] => []
  | .null :: rest => "" :: jsToStringList rest
  | v :: rest => jsToString v :: jsToStringList rest

end

/-- JavaScript `x.includes(d)` for the values `parseGaugidError` can
hold in `message`: substring containment for strings,
SameValueZero element search for arrays (which a string argument can
only match at string elements), and a thrown TypeError — modelled by
`none` — for numbers, booleans and plain objects, which have no
`includes` method. -/
def jsIncludes (v : Json) (d : String) : Option Bool :=
  match v with
  | .str s => some (strIncludes s d)
  | .arr xs =>
    some (xs.any (fun e => match e with | .str t => decide (t = d) | _ => false))
  | _ => none

/-- JavaScript `x && typeof x === "object"`: true for objects and arrays,
false for null (falsy) and all primitives. -/
def jsIsObjectLike : Json → Bool
  | .arr _ => true
  | .obj _ => true
  | _ => false

/-- JavaScript property access `x[k]` (undefined on non-objects). -/
def jGet : Json → String → Option Json
  | .obj fields, k => lookupKey fields k
  | _, _ => none

/-- An HTTP response as the component observes it: the status, the
status text, and the outcome of `response.json()` (a parsed value or a
thrown parse error). -/
structure HttpResponse where
  status : Nat
  statusText : String
  body : Except Unit Json

/-- `response.ok`: status in the 2xx range. -/
def HttpResponse.ok (r : HttpResponse) : Bool :=
  decide (200 ≤ r.status) && decide (r.status < 300)

/-- `parseGaugidError` from `types.ts`. A non-string `code` field behaves
for the table lookup and the strict equality tests exactly like an absent
one and is modelled as absent. The selected message is kept as the raw
JavaScript value: a truthy non-string `message` survives the `||` chain
untouched, so when the code is found in `ERROR_CODES` the subsequent
`message.includes(description)` throws a TypeError for numbers, booleans
and plain objects — the `.error ()` result; otherwise the value is
coerced to a string by the template literal or by the `Error`
constructor. -/
def selectedMessage (statusFallback : String) (eo : Json) : Json :=
  match jGet eo "message" with
  | some v => if jsTruthy v then v else .str statusFallback
  | none => .str statusFallback

def parseGaugidError (response : HttpResponse) (errorData : Json) :
    Except Unit GaugidErr :=
  let statusFallback : String :=
    if response.statusText = "" then "Unknown error" else response.statusText
  let codeAndMessage : Option String × Json :=
    match jGet errorData "error" with
    | some eo =>
      if jsIsObjectLike eo then
        (match jGet eo "code" with
          | some (.str s) => some s
          | _ => none,
         selectedMessage statusFallback eo)
      else (none, .str statusFallback)
    | none => (none, .str statusFallback)
  let code : Option String := codeAndMessage.1
  let message0 : Json := codeAndMessage.2
  let enhanced : Except Unit Json :=
    match code with
    | none => .ok message0
    | some c =>
      if c = "" then .ok message0
      else
        match lookupKey ERROR_CODES c with
        | none => .ok message0
        | some description =>
          if description = "" then .ok message0
          else
            match jsIncludes message0 description with
            | none => .error ()
            | some true => .ok message0
            | some false =>
              .ok (.str (jsToString message0 ++ " (" ++ description ++ ")"))
  match enhanced with
  | .error () => .error ()
  | .ok m =>
    if code = some "A2P001" ∨ code = some "A2P019" ∨ code = some "A2P020" ∨
        code = some "A2P021" then
      .ok (.auth (jsToString m) code)
    else
      .ok (.api (jsToString m) code response.status)

/-- `OAuthTokenResponse` from `types.ts` (the zod-parsed shape). -/
structure OAuthTokenResponse where
  access_token : String
  token_type : String
  expires_in : Int
  scope : String
  connection_id : Option String
  user_did : Option String
  profiles : Option (List Json)

def reqStringField (j : Json) (k : String) : Option String :=
  match jGet j k with
  | some (.str s) => some s
  | _ => none

def reqNumField (j : Json) (k : String) : Option Int :=
  match jGet j k with
  | some (.num n) => some n
  | _ => none

def optStringField (j : Json) (k : String) : Option (Option String) :=
  match jGet j k with
  | none => some none
  | some (.str s) => some (some s)
  | some _ => none

def Json.isObj : Json → Bool
  | .obj _ => true
  | _ => false

def optProfilesField (j : Json) (k : String) : Option (Option (List Json)) :=
  match jGet j k with
  | none => some none
  | some (.arr xs) => if xs.all Json.isObj then some (some xs) else none
  | some _ => none

/-- `OAuthTokenResponseSchema.parse`: succeeds exactly when the body is an
object with a string `access_token`, a numeric `expires_in`, a string
`scope`, an optional string `token_type` (defaulted to "Bearer"), optional
string `connection_id` and `user_did`, and an optional `profiles` array of
records. -/
def OAuthTokenResponseSchema.parse (j : Json) : Option OAuthTokenResponse :=
  match j with
  | .obj _ => do
    let accessToken ← reqStringField j "access_token"
    let tokenType ←
      match jGet j "token_type" with
      | none => some "Bearer"
      | some (.str s) => some s
      | some _ => none
    let expiresIn ← reqNumField j "expires_in"
    let scope ← reqStringField j "scope"
    let connectionId ← optStringField j "connection_id"
    let userDid ← optStringField j "user_did"
    let profiles ← optProfilesField j "profiles"
    some { access_token := accessToken, token_type := tokenType,
           expires_in := expiresIn, scope := scope,
           connection_id := connectionId, user_did := userDid,
           profiles := profiles }
  | _ => none

/-- Configuration of `OAuthFlow` (`utils.ts`), after the constructor's
normalisation of `apiUrl` and defaulting of `timeout`. -/
structure OAuthFlowConfig where
  clientId : String
  clientSecret : String
  redirectUri : String
  apiUrl : String
  timeout : Nat

/-- The single HTTP request a flow method issues: URL, method, content
type and the JSON payload (all payload fields here are strings). -/
structure HttpRequest where
  url : String
  method : String
  contentType : String
  body : List (String × String)
deriving DecidableEq

/-- The request built by `exchangeCode`. The optional `state` argument is
accepted, as in the source, and does not occur in the request. -/
def exchangeCodeRequest (cfg : OAuthFlowConfig) (code : String)
    ( _state : Option String) : HttpRequest :=
  { url := cfg.apiUrl ++ "/connect/token"
    method := "POST"
    contentType := "application/json"
    body := [("grant_type", "authorization_code"), ("code", code),
             ("client_id", cfg.clientId), ("client_secret", cfg.clientSecret),
             ("redirect_uri", cfg.redirectUri)] }

/-- Processing of the token-endpoint response by `exchangeCode`:
401 is an auth error with a fixed message; 400 is an auth error whose
message is the server-supplied `error.message` when truthy (or the
stringified `error` when it is a truthy primitive), else the generic
"Token exchange failed"; any other non-2xx goes through
`parseGaugidError` on the parsed body (or `{}` when parsing failed),
whose thrown TypeError, like every non-Gaugid exception, is wrapped by
the outer catch; a 2xx body is zod-parsed, and both a body-parse
failure and a schema mismatch surface as a connection error the same
way (the interpolated cause in these messages is abstracted to the
exception name). -/
def exchangeCodeResult ( _cfg : OAuthFlowConfig) (response : HttpResponse) :
    Except GaugidErr OAuthTokenResponse :=
  if response.status = 401 then
    .error (.auth "Invalid client credentials" none)
  else if response.status = 400 then
    let message : String :=
      match response.body with
      | .error _ => "Token exchange failed"
      | .ok j =>
        match jGet j "error" with
        | some eo =>
          if jsIsObjectLike eo then
            match jGet eo "message" with
            | some v => if jsTruthy v then jsToString v else "Token exchange failed"
            | none => "Token exchange failed"
          else if jsTruthy eo then jsToString eo
          else "Token exchange failed"
        | none => "Token exchange failed"
    .error (.auth message none)
  else if response.ok then
    match response.body with
    | .error _ => .error (.conn "Failed to connect to Gaugid API: SyntaxError")
    | .ok j =>
      match OAuthTokenResponseSchema.parse j with
      | some r => .ok r
      | none => .error (.conn "Failed to connect to Gaugid API: ZodError")
  else
    let errorData : Json :=
      match response.body with
      | .ok j => j
      | .error _ => .obj []
    match parseGaugidError response errorData with
    | .ok e => .error e
    | .error () => .error (.conn "Failed to connect to Gaugid API: TypeError")

/-- `exchangeCode` as a whole: the request it builds from its arguments,
and the result it computes from the server's response. `cfg.timeout`
only bounds the wall-clock wait and does not affect either component. -/
def exchangeCode (cfg : OAuthFlowConfig) (code : String) ( _state : Option String)
    (response : HttpResponse) : HttpRequest × Except GaugidErr OAuthTokenResponse :=
  (exchangeCodeRequest cfg code _state, exchangeCodeResult cfg response)

/-- Value of a hexadecimal digit character, both cases. -/
def hexVal (c : Char) : Option Nat :=
  if '0' ≤ c ∧ c ≤ '9' then some (c.toNat - 48)
  else if 'A' ≤ c ∧ c ≤ 'F' then some (c.toNat - 55)
  else if 'a' ≤ c ∧ c ≤ 'f' then some (c.toNat - 87)
  else none

/-- WHATWG `application/x-www-form-urlencoded` percent-decoding as
`URLSearchParams` applies it to keys and values: `+` becomes a space, a
`%` followed by two hex digits becomes the encoded byte, a malformed `%`
stays literal. Multi-byte UTF-8 sequences are decoded byte-by-byte here,
which agrees with the platform for ASCII text (all this component ever
round-trips through it). -/
def percentDecodeFuel : Nat → List Char → List Char
  | _, [] => []
  | 0, _ :: _ => []
  | fuel + 1, c :: rest =>
    if c = '+' then ' ' :: percentDecodeFuel fuel rest
    else if c = '%' then
      match rest with
      | a :: b :: rest2 =>
        match hexVal a, hexVal b with
        | some ha, some hb => Char.ofNat (16 * ha + hb) :: percentDecodeFuel fuel rest2
        | _, _ => '%' :: percentDecodeFuel fuel (a :: b :: rest2)
      | r => '%' :: percentDecodeFuel fuel r
    else c :: percentDecodeFuel fuel rest

def percentDecodeAux (l : List Char) : List Char :=
  percentDecodeFuel l.length l

/-- Split a query string on `&`, as `URLSearchParams` does. -/
def splitOnAmp : List Char → List (List Char)
  | [] => [[]]
  | c :: rest =>
    if c = '&' then [] :: splitOnAmp rest
    else
      match splitOnAmp rest with
      | [] => [[c]]
      | seg :: segs => (c :: seg) :: segs

/-- The part of a `key=value` segment before the first `=`. -/
def paramKey (seg : List Char) : List Char :=
  seg.takeWhile (fun d => d != '=')

/-- The part of a `key=value` segment after the first `=` (empty when
there is no `=`). -/
def paramVal (seg : List Char) : List Char :=
  match seg.dropWhile (fun d => d != '=') with
  | [] => []
  | _ :: v => v

/-- Parse a query string into its key-value pairs in order, as
`URLSearchParams` does: split on `&`, skip empty segments, split each
segment at its first `=`, percent-decode key and value. -/
def parseQuery (q : List Char) : List (String × String) :=
  ((splitOnAmp q).filter (fun seg => !seg.isEmpty)).map
    (fun seg => ((⟨percentDecodeAux (paramKey seg)⟩ : String),
                 (⟨percentDecodeAux (paramVal seg)⟩ : String)))

/-- The query component of a URL string: what lies after the first `?`
that is not preceded by a `#`, up to the first following `#`. -/
def queryOfAux : List Char → List Char
  | [] => []
  | c :: rest =>
    if c = '#' then []
    else if c = '?' then rest.takeWhile (fun d => d != '#')
    else queryOfAux rest

/-- `new URL(url).searchParams.get(name)`: the first value under the
name, or null. -/
def getParam (url : String) (name : String) : Option String :=
  lookupKey (parseQuery (queryOfAux url.data)) name

/-- `parseAuthorizationResponse` from `utils.ts`: reject when a truthy
`error` parameter is present (message carries `error` and
`error_description`), then when the `state` parameter differs from the
expected state, then when the `code` parameter is absent or empty;
otherwise return the code. All rejections are authentication errors. -/
def parseAuthorizationResponse (redirectUrl : String) (expectedState : String) :
    Except GaugidErr String :=
  let params := parseQuery (queryOfAux redirectUrl.data)
  let error := (lookupKey params "error").getD ""
  if error ≠ "" then
    .error (.auth ("OAuth error: " ++ error ++ " - " ++
      (lookupKey params "error_description").getD "") none)
  else if lookupKey params "state" ≠ some expectedState then
    .error (.auth "State mismatch in OAuth callback" none)
  else
    let code := (lookupKey params "code").getD ""
    if code = "" then
      .error (.auth "Authorization code not found in redirect URL" none)
    else .ok code

/-- Characters serialized verbatim by the WHATWG
`application/x-www-form-urlencoded` serializer: ASCII alphanumerics and
`*`, `-`, `.`, `_`. -/
def isFormSafe (c : Char) : Bool :=
  c.isAlphanum || c = '*' || c = '-' || c = '.' || c = '_'

/-- Uppercase hexadecimal digit for a value below 16. -/
def hexDigit (n : Nat) : Char :=
  if n < 10 then Char.ofNat (48 + n) else Char.ofNat (55 + n)

/-- UTF-8 bytes of a code point. -/
def utf8Bytes (n : Nat) : List Nat :=
  if n < 128 then [n]
  else if n < 2048 then [192 + n / 64, 128 + n % 64]
  else if n < 65536 then [224 + n / 4096, 128 + n / 64 % 64, 128 + n % 64]
  else [240 + n / 262144, 128 + n / 4096 % 64, 128 + n / 64 % 64, 128 + n % 64]

/-- Serialization of one character by `URLSearchParams.toString`:
space to `+`, safe characters verbatim, anything else percent-encoded
per UTF-8 byte with uppercase hex. -/
def formEncodeChar (c : Char) : List Char :=
  if c = ' ' then ['+']
  else if isFormSafe c then [c]
  else (utf8Bytes c.toNat).flatMap (fun b => ['%', hexDigit (b / 16), hexDigit (b % 16)])

/-- Serialization of a whole key or value. -/
def formEncode (s : String) : List Char :=
  s.data.flatMap formEncodeChar

/-- `URLSearchParams.toString()`: `key=value` pairs joined by `&`. -/
def serializeQuery : List (String × String) → List Char
  | [] => []
  | [p] => formEncode p.1 ++ '=' :: formEncode p.2
  | p :: q :: rest =>
    formEncode p.1 ++ '=' :: (formEncode p.2 ++ '&' :: serializeQuery (q :: rest))

/-- The base64url alphabet used by
`Buffer.toString("base64url")` (no padding). -/
def b64urlAlphabet : List Char :=
  "ABCDEFGHIJKLMNOPQRSTUVWXYZabcdefghijklmnopqrstuvwxyz0123456789-_".data

def b64Char (n : Nat) : Char :=
  b64urlAlphabet.getD n 'A'

/-- base64url encoding of a byte list, without padding, as Node's
`Buffer.from(bytes).toString("base64url")` produces it. -/
def b64urlEncode : List Nat → List Char
  | b1 :: b2 :: b3 :: rest =>
    b64Char (b1 / 4) :: b64Char (b1 % 4 * 16 + b2 / 16) ::
      b64Char (b2 % 16 * 4 + b3 / 64) :: b64Char (b3 % 64) :: b64urlEncode rest
  | [b1, b2] => [b64Char (b1 / 4), b64Char (b1 % 4 * 16 + b2 / 16), b64Char (b2 % 16 * 4)]
  | [b1] => [b64Char (b1 / 4), b64Char (b1 % 4 * 16)]
  | [] => []

def b64Index (c : Char) : Nat :=
  b64urlAlphabet.indexOf c

/-- Inverse of `b64urlEncode`, used to prove it injective. -/
def b64urlDecode : List Char → List Nat
  | c1 :: c2 :: c3 :: c4 :: rest =>
    (b64Index c1 * 4 + b64Index c2 / 16) ::
      (b64Index c2 % 16 * 16 + b64Index c3 / 4) ::
      (b64Index c3 % 4 * 64 + b64Index c4) :: b64urlDecode rest
  | [c1, c2, c3] =>
    [b64Index c1 * 4 + b64Index c2 / 16, b64Index c2 % 16 * 16 + b64Index c3 / 4]
  | [c1, c2] => [b64Index c1 * 4 + b64Index c2 / 16]
  | _ => []

/-- `getAuthorizationUrl` from `utils.ts`. The 32 cryptographically
random bytes drawn when no state is supplied (or when the supplied state
is the empty string, which is falsy) are passed explicitly as
`randomBytes32`. Returns the authorization URL and the state. -/
def getAuthorizationUrl (cfg : OAuthFlowConfig) (scopes : List String)
    (stateOpt : Option String) (randomBytes32 : List Nat) : String × String :=
  let state : String :=
    match stateOpt with
    | some s => if s = "" then ⟨b64urlEncode randomBytes32⟩ else s
    | none => ⟨b64urlEncode randomBytes32⟩
  let params := [("client_id", cfg.clientId), ("redirect_uri", cfg.redirectUri),
                 ("response_type", "code"), ("scope", String.intercalate "," scopes),
                 ("state", state)]
  (cfg.apiUrl ++ "/connect/authorize?" ++ (⟨serializeQuery params⟩ : String), state)

/-- Characters that percent-decoding maps to themselves (used to state
the round-trip part of the redirect-parsing claim): ASCII alphanumerics
and `-`, `.`, `_`, `~`. -/
def isUnreserved (c : Char) : Bool :=
  c.isAlphanum || c = '-' || c = '.' || c = '_' || c = '~'

theorem lookupKey_setKey_self {α : Type} (m : List (String × α)) (k : String) (v : α) :
    lookupKey (setKey m k v) k = some v := by
  induction m with
  | nil => simp [setKey, lookupKey]
  | cons p rest ih =>
    obtain ⟨k1, v1⟩ := p
    by_cases h : k1 = k
    · simp [setKey, h, lookupKey]
    · simp [setKey, h, lookupKey, ih]

theorem lookupKey_setKey_ne {α : Type} (m : List (String × α)) (k q : String) (v : α)
    (hne : q ≠ k) : lookupKey (setKey m k v) q = lookupKey m q := by
  induction m with
  | nil => simp [setKey, lookupKey, hne.symm]
  | cons p rest ih =>
    obtain ⟨k1, v1⟩ := p
    by_cases h : k1 = k
    · subst h
      simp [setKey, lookupKey, hne.symm]
    · simp [setKey, h, lookupKey, ih]

theorem lookupKey_eraseKey_self {α : Type} (m : List (String × α)) (k : String) :
    lookupKey (eraseKey m k) k = none := by
  induction m with
  | nil => simp [eraseKey, lookupKey]
  | cons p rest ih =>
    obtain ⟨k1, v1⟩ := p
    by_cases h : k1 = k
    · simp [eraseKey, h, ih]
    · simp [eraseKey, h, lookupKey, ih]

theorem lookupKey_eraseKey_ne {α : Type} (m : List (String × α)) (k q : String)
    (hne : q ≠ k) : lookupKey (eraseKey m k) q = lookupKey m q := by
  induction m with
  | nil => simp [eraseKey]
  | cons p rest ih =>
    obtain ⟨k1, v1⟩ := p
    by_cases h : k1 = k
    · subst h
      simp [eraseKey, lookupKey, hne.symm, ih]
    · simp [eraseKey, h, lookupKey, ih]

theorem not_mem_keys_eraseKey {α : Type} (m : List (String × α)) (k : String) :
    k ∉ (eraseKey m k).map Prod.fst := by
  induction m with
  | nil => simp [eraseKey]
  | cons p rest ih =>
    obtain ⟨k1, v1⟩ := p
    by_cases h : k1 = k
    · simpa [eraseKey, h] using ih
    · simp [eraseKey, h, ih, Ne.symm h]

/-- C1: for every connectionId, `ConnectionManager.getConnectionToken` returns
null exactly when no record is stored under that id or
`TokenStorage.isTokenExpired` is true, and otherwise returns the stored
record's token string. -/
theorem C1_getConnectionToken_spec (d : Disk) (now : Nat) (id : String) :
    (ConnectionManager.getConnectionToken d now id = none ↔
      TokenStorage.getToken d id = none ∨ TokenStorage.isTokenExpired d now id = true) ∧
    ∀ info, TokenStorage.getToken d id = some info →
      TokenStorage.isTokenExpired d now id = false →
      ConnectionManager.getConnectionToken d now id = some info.token := by
  constructor
  · unfold ConnectionManager.getConnectionToken
    cases h : TokenStorage.getToken d id with
    | none => simp
    | some info =>
      by_cases he : TokenStorage.isTokenExpired d now id
      · simp [he]
      · simp [he]
  · intro info hg he
    unfold ConnectionManager.getConnectionToken
    rw [hg, he]
    simp

/-- C1 witness: on a concrete one-record store with a far-future expiry,
`getConnectionToken` returns the stored token string. -/
theorem C1_getConnectionToken_witness :
    ConnectionManager.getConnectionToken
      (.stored [("svc1",
        { token := "t1", expiresAt := some 99, scopes := some ["a2p:preferences"],
          connectionId := none, userDid := none, profiles := none,
          savedAt := "2026-01-01T00:00:00Z" })]) 5000 "svc1" = some "t1" :=
  (C1_getConnectionToken_spec
      (.stored [("svc1",
        { token := "t1", expiresAt := some 99, scopes := some ["a2p:preferences"],
          connectionId := none, userDid := none, profiles := none,
          savedAt := "2026-01-01T00:00:00Z" })]) 5000 "svc1").2
    { token := "t1", expiresAt := some 99, scopes := some ["a2p:preferences"],
      connectionId := none, userDid := none, profiles := none } rfl rfl

/-- C2: `TokenStorage.isTokenExpired` is true iff the record is absent, has no
`expiresAt`, or the current time is at or past `expiresAt` in epoch seconds;
in particular it is false for a record whose expiry is strictly in the
future. The source's JavaScript falsy test also sends `expiresAt = 0` to the
`true` branch, which coincides with the time comparison since the current
time is nonnegative. -/
theorem C2_isTokenExpired_spec (d : Disk) (now : Nat) (id : String) :
    (TokenStorage.getToken d id = none → TokenStorage.isTokenExpired d now id = true) ∧
    (∀ info, TokenStorage.getToken d id = some info →
      (TokenStorage.isTokenExpired d now id = true ↔
        info.expiresAt = none ∨
        ∃ e, info.expiresAt = some e ∧ (e * 1000 : Int) ≤ (now : Int))) ∧
    ∀ info e, TokenStorage.getToken d id = some info → info.expiresAt = some e →
      (now : Int) < e * 1000 → TokenStorage.isTokenExpired d now id = false := by
  refine ⟨?_, ?_, ?_⟩
  · intro h
    simp only [TokenStorage.isTokenExpired, h]
  · intro info h
    simp only [TokenStorage.isTokenExpired, h]
    cases he : info.expiresAt with
    | none => simp [he]
    | some e =>
      by_cases h0 : e = 0
      · subst h0
        simp [he]
      · simp only [he, h0, if_false, decide_eq_true_eq, Option.some.injEq,
          reduceCtorEq, false_or]
        constructor
        · intro hle
          exact ⟨e, rfl, hle⟩
        · rintro ⟨e2, rfl, hle⟩
          exact hle
  · intro info e h he hfut
    simp only [TokenStorage.isTokenExpired, h, he]
    have h0 : e ≠ 0 := by omega
    simp only [h0, if_false, decide_eq_false_iff_not]
    omega

/-- C2 witness: a record expiring at epoch second 99 is not expired at 5000 ms
and the expiry characterisation holds on that concrete store. -/
theorem C2_isTokenExpired_witness :
    TokenStorage.isTokenExpired
      (.stored [("svc1",
        { token := "t1", expiresAt := some 99, scopes := none,
          connectionId := none, userDid := none, profiles := none,
          savedAt := "s" })]) 5000 "svc1" = false :=
  (C2_isTokenExpired_spec
      (.stored [("svc1",
        { token := "t1", expiresAt := some 99, scopes := none,
          connectionId := none, userDid := none, profiles := none,
          savedAt := "s" })]) 5000 "svc1").2.2
    { token := "t1", expiresAt := some 99, scopes := some [],
      connectionId := none, userDid := none, profiles := none } 99 rfl rfl (by norm_num)

/-- C3: from every storage state, `saveToken` then `getToken` under the same
id returns exactly the written fields, with `scopes` defaulted to the empty
list when absent; a second `saveToken` under the same id overwrites, leaving
only the last-written values retrievable. -/
theorem C3_saveToken_getToken_roundtrip (d : Disk) (id : String)
    (info : ConnectionTokenInfo) (savedAt : String) :
    TokenStorage.getToken (TokenStorage.saveToken d id info savedAt) id =
      some { token := info.token, expiresAt := info.expiresAt,
             scopes := some (info.scopes.getD []),
             connectionId := info.connectionId, userDid := info.userDid,
             profiles := info.profiles } ∧
    ∀ info2 savedAt2,
      TokenStorage.getToken
          (TokenStorage.saveToken (TokenStorage.saveToken d id info savedAt) id
            info2 savedAt2) id =
        some { token := info2.token, expiresAt := info2.expiresAt,
               scopes := some (info2.scopes.getD []),
               connectionId := info2.connectionId, userDid := info2.userDid,
               profiles := info2.profiles } := by
  have main : ∀ (dd : Disk) (i : ConnectionTokenInfo) (sa : String),
      TokenStorage.getToken (TokenStorage.saveToken dd id i sa) id =
        some { token := i.token, expiresAt := i.expiresAt,
               scopes := some (i.scopes.getD []),
               connectionId := i.connectionId, userDid := i.userDid,
               profiles := i.profiles } := by
    intro dd i sa
    unfold TokenStorage.getToken TokenStorage.saveToken TokenStorage.saveTokens
    simp [TokenStorage.loadTokens, lookupKey_setKey_self]
  exact ⟨main d info savedAt, fun info2 savedAt2 => main _ info2 savedAt2⟩

/-- C7: the read operations degrade to an empty store when the file is
missing or its content unparseable: `getToken` returns null,
`listConnections` returns the empty list and `isTokenExpired` returns true;
none of them propagates a failure (all are total functions of the disk
state). -/
theorem C7_read_paths_degrade (id : String) (now : Nat) :
    TokenStorage.getToken .missing id = none ∧
    TokenStorage.getToken .corrupt id = none ∧
    TokenStorage.listConnections .missing = [] ∧
    TokenStorage.listConnections .corrupt = [] ∧
    TokenStorage.isTokenExpired .missing now id = true ∧
    TokenStorage.isTokenExpired .corrupt now id = true :=
  ⟨rfl, rfl, rfl, rfl, rfl, rfl⟩

/-- C9: `deleteToken` succeeds on any state, makes `getToken` under that id
return null and removes the id from `listConnections`, while records under
every other id are untouched by both `deleteToken` and `saveToken` on the
given id. -/
theorem C9_deleteToken_frame (d : Disk) (id k : String) (info : ConnectionTokenInfo)
    (savedAt : String) (hk : k ≠ id) :
    TokenStorage.getToken (TokenStorage.deleteToken d id) id = none ∧
    id ∉ TokenStorage.listConnections (TokenStorage.deleteToken d id) ∧
    TokenStorage.getToken (TokenStorage.deleteToken d id) k = TokenStorage.getToken d k ∧
    TokenStorage.getToken (TokenStorage.saveToken d id info savedAt) k =
      TokenStorage.getToken d k := by
  refine ⟨?_, ?_, ?_, ?_⟩
  · unfold TokenStorage.getToken TokenStorage.deleteToken TokenStorage.saveTokens
    simp [TokenStorage.loadTokens, lookupKey_eraseKey_self]
  · unfold TokenStorage.listConnections TokenStorage.deleteToken TokenStorage.saveTokens
    simpa [TokenStorage.loadTokens] using not_mem_keys_eraseKey (TokenStorage.loadTokens d) id
  · unfold TokenStorage.getToken TokenStorage.deleteToken TokenStorage.saveTokens
    simp only [TokenStorage.loadTokens]
    rw [lookupKey_eraseKey_ne _ _ _ hk]
  · unfold TokenStorage.getToken TokenStorage.saveToken TokenStorage.saveTokens
    simp only [TokenStorage.loadTokens]
    rw [lookupKey_setKey_ne _ _ _ _ hk]

/-- C9 witness: the delete/save frame conditions evaluated on the empty
(missing-file) store at ids "a" and "b". -/
theorem C9_deleteToken_frame_witness :
    TokenStorage.getToken (TokenStorage.deleteToken .missing "a") "a" = none ∧
    "a" ∉ TokenStorage.listConnections (TokenStorage.deleteToken .missing "a") ∧
    TokenStorage.getToken (TokenStorage.deleteToken .missing "a") "b" =
      TokenStorage.getToken .missing "b" ∧
    TokenStorage.getToken
        (TokenStorage.saveToken .missing "a"
          { token := "t1", expiresAt := none, scopes := none,
            connectionId := none, userDid := none, profiles := none } "sa") "b" =
      TokenStorage.getToken .missing "b" :=
  C9_deleteToken_frame .missing "a" "b"
    { token := "t1", expiresAt := none, scopes := none,
      connectionId := none, userDid := none, profiles := none } "sa" (by decide)

theorem strIncludes_self (s : String) : strIncludes s s = true := by
  have h : s.data <:+: s.data := ⟨[], [], by simp⟩
  simpa [strIncludes] using h

theorem strIncludes_append (m pre sub suf : String) :
    strIncludes (m ++ pre ++ sub ++ suf) sub = true := by
  have h : sub.data <:+: (m ++ pre ++ sub ++ suf).data :=
    ⟨(m ++ pre).data, suf.data, by simp [String.data_append, List.append_assoc]⟩
  simpa [strIncludes] using h

theorem strIncludes_enhanced (m0 d : String) :
    strIncludes (if strIncludes m0 d then m0 else m0 ++ " (" ++ d ++ ")") d = true := by
  by_cases h : strIncludes m0 d
  · simpa [h] using h
  · simp [h, strIncludes_append]

theorem lookupKey_val {α : Type} (P : α → Prop) (l : List (String × α))
    (hl : ∀ p ∈ l, P p.2) (k : String) (v : α) (h : lookupKey l k = some v) : P v := by
  induction l with
  | nil => simp [lookupKey] at h
  | cons p rest ih =>
    obtain ⟨k1, v1⟩ := p
    by_cases hk : k1 = k
    · simp only [lookupKey, if_pos hk, Option.some.injEq] at h
      subst h
      exact hl (k1, v1) (by simp)
    · simp only [lookupKey, if_neg hk] at h
      exact ih (fun q hq => hl q (by simp [hq])) h

theorem selectedMessage_str (fb : String) (eo : Json)
    (hmsg : jGet eo "message" = none ∨
      (∃ s, jGet eo "message" = some (.str s)) ∨
      (∃ v, jGet eo "message" = some v ∧ jsTruthy v = false)) :
    ∃ m, selectedMessage fb eo = Json.str m := by
  rcases hmsg with hnone | ⟨s, hs⟩ | ⟨v, hv, hfalse⟩
  · exact ⟨fb, by simp only [selectedMessage, hnone]⟩
  · by_cases ht : jsTruthy (.str s) = true
    · exact ⟨s, by simp [selectedMessage, hs, ht]⟩
    · exact ⟨fb, by simp [selectedMessage, hs, ht]⟩
  · exact ⟨fb, by simp [selectedMessage, hv, hfalse]⟩

/-- C8 counterexample: an HTTP error response carrying the protocol code
A2P019 with a numeric `error.message`. The number is truthy, so it
survives the `||` chain, and since the code is in `ERROR_CODES` the
source evaluates `message.includes(description)` on a number, which
throws a TypeError — the `.error ()` result — and produces neither an
AuthenticationError nor an APIError, against the claim. -/
theorem C8_parseGaugidError_counterexample :
    parseGaugidError { status := 403, statusText := "Forbidden", body := .error () }
      (.obj [("error", .obj [("code", .str "A2P019"), ("message", .num 5)])]) =
      .error () := by rfl

/-- C8 (amended): for every HTTP error response whose body carries a
protocol error code listed in `ERROR_CODES` and whose `error.message`
field, when present and truthy, is a string, `parseGaugidError` returns
an error whose message contains the code's human-readable description,
and that error is an AuthenticationError exactly for the codes A2P001
(not authorized), A2P019 (invalid or expired connection token), A2P020
(connection revoked) and A2P021 (connection token required); every other
code yields an APIError. -/
theorem C8_parseGaugidError_amended (response : HttpResponse) (errorData eo : Json)
    (c description : String)
    (h1 : jGet errorData "error" = some eo)
    (h2 : jsIsObjectLike eo = true)
    (h3 : jGet eo "code" = some (.str c))
    (h4 : lookupKey ERROR_CODES c = some description)
    (hmsg : jGet eo "message" = none ∨
      (∃ s, jGet eo "message" = some (.str s)) ∨
      (∃ v, jGet eo "message" = some v ∧ jsTruthy v = false)) :
    ∃ e, parseGaugidError response errorData = .ok e ∧
      strIncludes e.message description = true ∧
      (e.isAuth = true ↔
        c = "A2P001" ∨ c = "A2P019" ∨ c = "A2P020" ∨ c = "A2P021") ∧
      (e.isApi = true ↔
        ¬(c = "A2P001" ∨ c = "A2P019" ∨ c = "A2P020" ∨ c = "A2P021")) := by
  have hc : c ≠ "" := by
    rintro rfl
    simp [ERROR_CODES, lookupKey] at h4
  have hd : description ≠ "" := by
    refine lookupKey_val (fun v => v ≠ "") ERROR_CODES ?_ c description h4
    decide
  obtain ⟨m, hm⟩ := selectedMessage_str
    (if response.statusText = "" then "Unknown error" else response.statusText) eo hmsg
  by_cases hA : c = "A2P001" ∨ c = "A2P019" ∨ c = "A2P020" ∨ c = "A2P021"
  · refine ⟨.auth (if strIncludes m description then m
        else m ++ " (" ++ description ++ ")") (some c), ?_, ?_, ?_, ?_⟩
    · simp only [parseGaugidError, h1, h2, h3, h4, hm]
      by_cases hinc : strIncludes m description = true <;>
        simp [hc, hd, h4, hA, hinc, jsIncludes, jsToString]
    · simpa [GaugidErr.message] using strIncludes_enhanced m description
    · simp [GaugidErr.isAuth, hA]
    · simp [GaugidErr.isApi, hA]
  · refine ⟨.api (if strIncludes m description then m
        else m ++ " (" ++ description ++ ")") (some c) response.status, ?_, ?_, ?_, ?_⟩
    · simp only [parseGaugidError, h1, h2, h3, h4, hm]
      by_cases hinc : strIncludes m description = true <;>
        simp [hc, hd, h4, hA, hinc, jsIncludes, jsToString]
    · simpa [GaugidErr.message] using strIncludes_enhanced m description
    · simp [GaugidErr.isAuth, hA]
    · simp [GaugidErr.isApi, hA]

/-- C8 witness: a 403 response carrying code A2P019 with a string message
yields an authentication error whose message contains the code's
description. -/
theorem C8_parseGaugidError_witness :
    ∃ e, parseGaugidError
        { status := 403, statusText := "Forbidden", body := .error () }
        (.obj [("error", .obj [("code", .str "A2P019"),
                               ("message", .str "bad token")])]) = .ok e ∧
      strIncludes e.message "Invalid or expired connection token" = true ∧
      (e.isAuth = true ↔ "A2P019" = "A2P001" ∨ "A2P019" = "A2P019" ∨
        "A2P019" = "A2P020" ∨ "A2P019" = "A2P021") ∧
      (e.isApi = true ↔ ¬("A2P019" = "A2P001" ∨ "A2P019" = "A2P019" ∨
        "A2P019" = "A2P020" ∨ "A2P019" = "A2P021")) :=
  C8_parseGaugidError_amended
    { status := 403, statusText := "Forbidden", body := .error () }
    (.obj [("error", .obj [("code", .str "A2P019"), ("message", .str "bad token")])])
    (.obj [("code", .str "A2P019"), ("message", .str "bad token")])
    "A2P019" "Invalid or expired connection token" rfl rfl rfl rfl
    (Or.inr (Or.inl ⟨"bad token", rfl⟩))

/-- C4: `exchangeCode` maps a 401 response to an authentication error whose
message contains "Invalid client credentials"; a 400 response to an
authentication error carrying the server-supplied `error.message` when the
body parses to one, and "Token exchange failed" when the body is
unparseable; and a 200 response whose JSON body lacks `access_token` to a
connection error (schema validation failure). -/
theorem C4_exchangeCode_error_mapping (cfg : OAuthFlowConfig) (response : HttpResponse) :
    (response.status = 401 →
      ∃ m, exchangeCodeResult cfg response = .error (.auth m none) ∧
        strIncludes m "Invalid client credentials" = true) ∧
    (∀ j eo m, response.status = 400 → response.body = .ok j →
      jGet j "error" = some eo → jsIsObjectLike eo = true →
      jGet eo "message" = some (.str m) → m ≠ "" →
      exchangeCodeResult cfg response = .error (.auth m none)) ∧
    (response.status = 400 → response.body = .error () →
      exchangeCodeResult cfg response = .error (.auth "Token exchange failed" none)) ∧
    (∀ j, response.status = 200 → response.body = .ok j →
      jGet j "access_token" = none →
      ∃ m, exchangeCodeResult cfg response = .error (.conn m)) := by
  refine ⟨?_, ?_, ?_, ?_⟩
  · intro h
    refine ⟨"Invalid client credentials", ?_, strIncludes_self _⟩
    simp [exchangeCodeResult, h]
  · intro j eo m h hb he ho hm hmne
    simp [exchangeCodeResult, h, hb, he, ho, hm, jsTruthy, jsToString, hmne]
  · intro h hb
    simp [exchangeCodeResult, h, hb]
  · intro j h hb hat
    have hparse : OAuthTokenResponseSchema.parse j = none := by
      cases j with
      | obj fields => simp [OAuthTokenResponseSchema.parse, reqStringField, hat]
      | null => rfl
      | bool b => rfl
      | num n => rfl
      | str s => rfl
      | arr xs => rfl
    refine ⟨"Failed to connect to Gaugid API: ZodError", ?_⟩
    simp [exchangeCodeResult, h, hb, HttpResponse.ok, hparse]

/-- C4 witness: the three error mappings evaluated on concrete responses
(401; 400 with and without a parseable body; 200 with a body missing
`access_token`). -/
theorem C4_exchangeCode_witness :
    (∃ m, exchangeCodeResult
        { clientId := "cid", clientSecret := "sec", redirectUri := "https://app/cb",
          apiUrl := "https://api.gaugid.com", timeout := 30000 }
        { status := 401, statusText := "", body := .error () } =
          .error (.auth m none) ∧
      strIncludes m "Invalid client credentials" = true) ∧
    exchangeCodeResult
        { clientId := "cid", clientSecret := "sec", redirectUri := "https://app/cb",
          apiUrl := "https://api.gaugid.com", timeout := 30000 }
        { status := 400, statusText := "",
          body := .ok (.obj [("error", .obj [("message", .str "bad code")])]) } =
      .error (.auth "bad code" none) ∧
    exchangeCodeResult
        { clientId := "cid", clientSecret := "sec", redirectUri := "https://app/cb",
          apiUrl := "https://api.gaugid.com", timeout := 30000 }
        { status := 400, statusText := "", body := .error () } =
      .error (.auth "Token exchange failed" none) ∧
    ∃ m, exchangeCodeResult
        { clientId := "cid", clientSecret := "sec", redirectUri := "https://app/cb",
          apiUrl := "https://api.gaugid.com", timeout := 30000 }
        { status := 200, statusText := "",
          body := .ok (.obj [("token_type", .str "Bearer")]) } =
      .error (.conn m) :=
  ⟨(C4_exchangeCode_error_mapping _ _).1 rfl,
   (C4_exchangeCode_error_mapping _ _).2.1
     (.obj [("error", .obj [("message", .str "bad code")])])
     (.obj [("message", .str "bad code")]) "bad code" rfl rfl rfl rfl rfl (by decide),
   (C4_exchangeCode_error_mapping _ _).2.2.1 rfl rfl,
   (C4_exchangeCode_error_mapping _ _).2.2.2
     (.obj [("token_type", .str "Bearer")]) rfl rfl rfl⟩

/-- C10: `exchangeCode` never uses its optional state argument: two
invocations differing only in the state build the same request, whose body
holds exactly grant_type, code, client_id, client_secret and redirect_uri,
and compute the same result from the same server response. -/
theorem C10_exchangeCode_state_independent (cfg : OAuthFlowConfig) (code : String)
    (s1 s2 : Option String) (response : HttpResponse) :
    exchangeCode cfg code s1 response = exchangeCode cfg code s2 response ∧
    (exchangeCode cfg code s1 response).1.url = cfg.apiUrl ++ "/connect/token" ∧
    (exchangeCode cfg code s1 response).1.body =
      [("grant_type", "authorization_code"), ("code", code),
       ("client_id", cfg.clientId), ("client_secret", cfg.clientSecret),
       ("redirect_uri", cfg.redirectUri)] :=
  ⟨rfl, rfl, rfl⟩

theorem string_mk_data (s : String) : (⟨s.data⟩ : String) = s := by
  cases s
  rfl

theorem hexVal_hexDigit : ∀ k, k < 16 → hexVal (hexDigit k) = some k := by decide

theorem percentDecodeFuel_irrel (f1 : Nat) : ∀ (f2 : Nat) (l : List Char),
    l.length ≤ f1 → l.length ≤ f2 → percentDecodeFuel f1 l = percentDecodeFuel f2 l := by
  induction f1 with
  | zero =>
    intro f2 l h1 h2
    have hl : l = [] := by cases l <;> simp at h1 ⊢
    subst hl
    cases f2 <;> rfl
  | succ g ih =>
    intro f2 l h1 h2
    cases l with
    | nil => cases f2 <;> rfl
    | cons c rest =>
      cases f2 with
      | zero => simp at h2
      | succ g2 =>
        have hr1 : rest.length ≤ g := by simp at h1; omega
        have hr2 : rest.length ≤ g2 := by simp at h2; omega
        simp only [percentDecodeFuel]
        by_cases hc1 : c = '+'
        · simp [hc1, ih g2 rest hr1 hr2]
        · by_cases hc2 : c = '%'
          · simp only [hc1, hc2, if_false, if_true]
            cases rest with
            | nil => simp [percentDecodeFuel]
            | cons a rtail =>
              cases rtail with
              | nil =>
                have h5 := ih g2 [a] (by simp at h1 ⊢; omega) (by simp at h2 ⊢; omega)
                simp [h5]
              | cons b rest2 =>
                have h3 : rest2.length ≤ g := by simp at h1; omega
                have h4 : rest2.length ≤ g2 := by simp at h2; omega
                have h5 : (a :: b :: rest2).length ≤ g := by simp at h1 ⊢; omega
                have h6 : (a :: b :: rest2).length ≤ g2 := by simp at h2 ⊢; omega
                cases hva : hexVal a with
                | none => simp [hva, ih g2 (a :: b :: rest2) h5 h6]
                | some ha =>
                  cases hvb : hexVal b with
                  | none => simp [hva, hvb, ih g2 (a :: b :: rest2) h5 h6]
                  | some hb => simp [hva, hvb, ih g2 rest2 h3 h4]
          · simp [hc1, hc2, ih g2 rest hr1 hr2]

theorem percentDecodeAux_cons (c : Char) (rest : List Char) :
    percentDecodeAux (c :: rest) =
      if c = '+' then ' ' :: percentDecodeAux rest
      else if c = '%' then
        match rest with
        | a :: b :: rest2 =>
          match hexVal a, hexVal b with
          | some ha, some hb => Char.ofNat (16 * ha + hb) :: percentDecodeAux rest2
          | _, _ => '%' :: percentDecodeAux (a :: b :: rest2)
        | r => '%' :: percentDecodeAux r
      else c :: percentDecodeAux rest := by
  rw [percentDecodeAux, show (c :: rest).length = rest.length + 1 from rfl]
  simp only [percentDecodeFuel]
  by_cases hc1 : c = '+'
  · simp [hc1, percentDecodeAux]
  · by_cases hc2 : c = '%'
    · simp only [hc1, hc2, if_false, if_true]
      cases rest with
      | nil => rfl
      | cons a rtail =>
        cases rtail with
        | nil => rfl
        | cons b rest2 =>
          cases hva : hexVal a with
          | none => simp [hva, percentDecodeAux]
          | some ha =>
            cases hvb : hexVal b with
            | none => simp [hva, hvb, percentDecodeAux]
            | some hb =>
              simp only [hva, hvb]
              have hir := percentDecodeFuel_irrel (a :: b :: rest2).length rest2.length
                rest2 (by simp only [List.length_cons]; omega) le_rfl
              rw [hir]
              rfl
    · simp [hc1, hc2, percentDecodeAux]

theorem percentDecodeAux_nil : percentDecodeAux [] = [] := rfl

theorem percentDecodeAux_unreserved (l : List Char)
    (hl : ∀ c ∈ l, isUnreserved c = true) : percentDecodeAux l = l := by
  induction l with
  | nil => exact percentDecodeAux_nil
  | cons c rest ih =>
    have hc : isUnreserved c = true := hl c (by simp)
    have h1 : c ≠ '+' := by rintro rfl; exact absurd hc (by decide)
    have h2 : c ≠ '%' := by rintro rfl; exact absurd hc (by decide)
    rw [percentDecodeAux_cons]
    simp [h1, h2, ih (fun d hd => hl d (by simp [hd]))]

theorem percentDecodeAux_formEncodeChar (c : Char) (hc : c.toNat < 128)
    (rest : List Char) :
    percentDecodeAux (formEncodeChar c ++ rest) = c :: percentDecodeAux rest := by
  by_cases hsp : c = ' '
  · subst hsp
    rw [formEncodeChar, if_pos rfl, List.cons_append, List.nil_append,
      percentDecodeAux_cons]
    simp
  · by_cases hsafe : isFormSafe c = true
    · have hplus : c ≠ '+' := by rintro rfl; exact absurd hsafe (by decide)
      have hpct : c ≠ '%' := by rintro rfl; exact absurd hsafe (by decide)
      rw [formEncodeChar, if_neg hsp, if_pos hsafe, List.cons_append,
        List.nil_append, percentDecodeAux_cons]
      simp [hplus, hpct]
    · have hu : utf8Bytes c.toNat = [c.toNat] := by rw [utf8Bytes, if_pos hc]
      have hv1 : hexVal (hexDigit (c.toNat / 16)) = some (c.toNat / 16) :=
        hexVal_hexDigit _ (by omega)
      have hv2 : hexVal (hexDigit (c.toNat % 16)) = some (c.toNat % 16) :=
        hexVal_hexDigit _ (by omega)
      have harith : 16 * (c.toNat / 16) + c.toNat % 16 = c.toNat := by omega
      rw [formEncodeChar, if_neg hsp, if_neg (by simp [hsafe])]
      rw [hu]
      simp only [List.flatMap_cons, List.flatMap_nil, List.append_nil,
        List.cons_append, List.nil_append]
      rw [percentDecodeAux_cons]
      simp [hv1, hv2, harith, Char.ofNat_toNat]

theorem percentDecodeAux_formEncode (l : List Char) (hl : ∀ c ∈ l, c.toNat < 128) :
    percentDecodeAux (l.flatMap formEncodeChar) = l := by
  induction l with
  | nil => simpa using percentDecodeAux_nil
  | cons c rest ih =>
    rw [List.flatMap_cons,
      percentDecodeAux_formEncodeChar c (hl c (by simp)),
      ih (fun d hd => hl d (by simp [hd]))]

theorem utf8Bytes_lt (n : Nat) (h : n < 1114112) : ∀ b ∈ utf8Bytes n, b < 256 := by
  intro b hb
  unfold utf8Bytes at hb
  by_cases h1 : n < 128
  · simp [h1] at hb
    omega
  · by_cases h2 : n < 2048
    · simp [h1, h2] at hb
      rcases hb with rfl | rfl <;> omega
    · by_cases h3 : n < 65536
      · simp [h1, h2, h3] at hb
        rcases hb with rfl | rfl | rfl <;> omega
      · simp [h1, h2, h3] at hb
        rcases hb with rfl | rfl | rfl | rfl <;> omega

theorem hexDigit_ne_sep : ∀ k, k < 16 →
    hexDigit k ≠ '&' ∧ hexDigit k ≠ '=' ∧ hexDigit k ≠ '#' := by decide

theorem char_toNat_lt (c : Char) : c.toNat < 1114112 := by
  have h55 : (55296 : UInt32).toNat = 55296 := rfl
  have h111 : (1114112 : UInt32).toNat = 1114112 := rfl
  rcases c.valid with h | ⟨h1, h2⟩
  · have hx : c.val.toNat < (55296 : UInt32).toNat := h
    rw [h55] at hx
    exact Nat.lt_trans hx (by omega)
  · have hx : c.val.toNat < (1114112 : UInt32).toNat := h2
    rw [h111] at hx
    exact hx

theorem formEncodeChar_no_sep (c d : Char) (hd : d ∈ formEncodeChar c) :
    d ≠ '&' ∧ d ≠ '=' ∧ d ≠ '#' := by
  unfold formEncodeChar at hd
  by_cases hsp : c = ' '
  · simp [hsp] at hd
    subst hd
    decide
  · by_cases hsafe : isFormSafe c = true
    · simp [hsp, hsafe] at hd
      subst hd
      refine ⟨?_, ?_, ?_⟩ <;> rintro rfl <;> exact absurd hsafe (by decide)
    · rw [if_neg hsp, if_neg (by simp [hsafe]), List.mem_flatMap] at hd
      obtain ⟨b, hb, hdb⟩ := hd
      have hb256 : b < 256 := utf8Bytes_lt c.toNat (char_toNat_lt c) b hb
      simp only [List.mem_cons, List.mem_singleton, List.not_mem_nil, or_false] at hdb
      rcases hdb with rfl | rfl | rfl
      · decide
      · exact hexDigit_ne_sep (b / 16) (by omega)
      · exact hexDigit_ne_sep (b % 16) (by omega)

theorem formEncode_no_sep (s : String) (d : Char) (hd : d ∈ formEncode s) :
    d ≠ '&' ∧ d ≠ '=' ∧ d ≠ '#' := by
  rw [formEncode, List.mem_flatMap] at hd
  obtain ⟨c, _, hdc⟩ := hd
  exact formEncodeChar_no_sep c d hdc

theorem splitOnAmp_no_amp (l : List Char) (h : ∀ c ∈ l, c ≠ '&') :
    splitOnAmp l = [l] := by
  induction l with
  | nil => rfl
  | cons c rest ih =>
    have hc : c ≠ '&' := h c (by simp)
    simp [splitOnAmp, hc, ih (fun d hd => h d (by simp [hd]))]

theorem splitOnAmp_append (l1 l2 : List Char) (h : ∀ c ∈ l1, c ≠ '&') :
    splitOnAmp (l1 ++ '&' :: l2) = l1 :: splitOnAmp l2 := by
  induction l1 with
  | nil => simp [splitOnAmp]
  | cons c rest ih =>
    have hc : c ≠ '&' := h c (by simp)
    simp [splitOnAmp, hc, ih (fun d hd => h d (by simp [hd]))]

theorem takeWhile_append_eq (k v : List Char) (hk : ∀ c ∈ k, c ≠ '=') :
    (k ++ '=' :: v).takeWhile (fun d => d != '=') = k := by
  induction k with
  | nil => simp [List.takeWhile]
  | cons c rest ih =>
    have hc : c ≠ '=' := hk c (by simp)
    have hb : (c != '=') = true := bne_iff_ne.mpr hc
    simp [List.takeWhile, hb, ih (fun d hd => hk d (by simp [hd]))]

theorem dropWhile_append_eq (k v : List Char) (hk : ∀ c ∈ k, c ≠ '=') :
    (k ++ '=' :: v).dropWhile (fun d => d != '=') = '=' :: v := by
  induction k with
  | nil => simp [List.dropWhile]
  | cons c rest ih =>
    have hc : c ≠ '=' := hk c (by simp)
    have hb : (c != '=') = true := bne_iff_ne.mpr hc
    simp [List.dropWhile, hb, ih (fun d hd => hk d (by simp [hd]))]

theorem paramKey_split (k v : List Char) (hk : ∀ c ∈ k, c ≠ '=') :
    paramKey (k ++ '=' :: v) = k :=
  takeWhile_append_eq k v hk

theorem paramVal_split (k v : List Char) (hk : ∀ c ∈ k, c ≠ '=') :
    paramVal (k ++ '=' :: v) = v := by
  rw [paramVal, dropWhile_append_eq k v hk]

theorem takeWhile_no_hash (q : List Char) (hq : ∀ c ∈ q, c ≠ '#') :
    q.takeWhile (fun d => d != '#') = q := by
  induction q with
  | nil => rfl
  | cons c rest ih =>
    have hc : c ≠ '#' := hq c (by simp)
    have hb : (c != '#') = true := bne_iff_ne.mpr hc
    simp [List.takeWhile, hb, ih (fun d hd => hq d (by simp [hd]))]

theorem queryOfAux_append (pre q : List Char)
    (hpre : ∀ c ∈ pre, c ≠ '?' ∧ c ≠ '#') (hq : ∀ c ∈ q, c ≠ '#') :
    queryOfAux (pre ++ '?' :: q) = q := by
  induction pre with
  | nil =>
    simp only [List.nil_append, queryOfAux]
    simp [takeWhile_no_hash q hq]
  | cons c rest ih =>
    obtain ⟨hc1, hc2⟩ := hpre c (by simp)
    simp only [List.cons_append, queryOfAux, hc1, hc2, if_false]
    exact ih (fun d hd => hpre d (by simp [hd]))

theorem serializeQuery_no_hash : ∀ (ps : List (String × String)),
    ∀ d ∈ serializeQuery ps, d ≠ '#'
  | [], d, hd => by simp [serializeQuery] at hd
  | [p], d, hd => by
    simp only [serializeQuery, List.mem_append, List.mem_cons] at hd
    rcases hd with h | rfl | h
    · exact (formEncode_no_sep p.1 d h).2.2
    · decide
    · exact (formEncode_no_sep p.2 d h).2.2
  | p :: q :: rest, d, hd => by
    simp only [serializeQuery, List.mem_append, List.mem_cons] at hd
    rcases hd with h | rfl | h | rfl | h
    · exact (formEncode_no_sep p.1 d h).2.2
    · decide
    · exact (formEncode_no_sep p.2 d h).2.2
    · decide
    · exact serializeQuery_no_hash (q :: rest) d h

theorem seg_no_amp (a b : String) :
    ∀ c ∈ formEncode a ++ '=' :: formEncode b, c ≠ '&' := by
  intro c hc
  rcases List.mem_append.mp hc with hl | hr
  · exact (formEncode_no_sep a c hl).1
  · rcases List.mem_cons.mp hr with rfl | hr2
    · decide
    · exact (formEncode_no_sep b c hr2).1

theorem seg_ne_nil (a b : String) :
    (formEncode a ++ '=' :: formEncode b).isEmpty = false := by
  cases h : formEncode a with
  | nil => simp [h]
  | cons x xs => simp [h]

theorem parseQuery_seg (a b : String)
    (ha : ∀ c ∈ a.data, c.toNat < 128) (hb : ∀ c ∈ b.data, c.toNat < 128)
    (seg : List Char) (hseg : seg = formEncode a ++ '=' :: formEncode b) :
    ((⟨percentDecodeAux (paramKey seg)⟩ : String),
     (⟨percentDecodeAux (paramVal seg)⟩ : String)) = (a, b) := by
  subst hseg
  have hkey : ∀ c ∈ formEncode a, c ≠ '=' :=
    fun c hc => (formEncode_no_sep a c hc).2.1
  rw [paramKey_split _ _ hkey, paramVal_split _ _ hkey, formEncode, formEncode,
    percentDecodeAux_formEncode a.data ha, percentDecodeAux_formEncode b.data hb,
    string_mk_data, string_mk_data]

theorem parseQuery_serializeQuery : ∀ (ps : List (String × String)),
    (∀ p ∈ ps, (∀ c ∈ p.1.data, c.toNat < 128) ∧ (∀ c ∈ p.2.data, c.toNat < 128)) →
    parseQuery (serializeQuery ps) = ps
  | [], _ => rfl
  | [p], h => by
    obtain ⟨h1, h2⟩ := h p (by simp)
    rw [serializeQuery, parseQuery, splitOnAmp_no_amp _ (seg_no_amp p.1 p.2)]
    simp only [List.filter_cons, seg_ne_nil p.1 p.2, Bool.not_false, if_pos,
      List.filter_nil, List.map_cons, List.map_nil]
    rw [parseQuery_seg p.1 p.2 h1 h2 _ rfl]
  | p :: q :: rest, h => by
    obtain ⟨h1, h2⟩ := h p (by simp)
    have ihres := parseQuery_serializeQuery (q :: rest) (fun r hr => h r (by simp [hr]))
    have hassoc : formEncode p.1 ++ '=' ::
        (formEncode p.2 ++ '&' :: serializeQuery (q :: rest)) =
        (formEncode p.1 ++ '=' :: formEncode p.2) ++ '&' :: serializeQuery (q :: rest) := by
      simp
    rw [serializeQuery, parseQuery, hassoc,
      splitOnAmp_append _ _ (seg_no_amp p.1 p.2)]
    rw [parseQuery] at ihres
    simp only [List.filter_cons, seg_ne_nil p.1 p.2, Bool.not_false, if_pos,
      List.map_cons]
    rw [parseQuery_seg p.1 p.2 h1 h2 _ rfl, ihres]

theorem b64Index_b64Char : ∀ i, i < 64 → b64Index (b64Char i) = i := by decide

theorem b64urlAlphabet_ascii : ∀ c ∈ b64urlAlphabet, c.toNat < 128 := by decide

theorem b64Char_mem (i : Nat) (h : i < 64) : b64Char i ∈ b64urlAlphabet := by
  have hlen : i < b64urlAlphabet.length := by
    rw [show b64urlAlphabet.length = 64 from rfl]
    exact h
  rw [b64Char, List.getD_eq_getElem _ _ hlen]
  exact List.getElem_mem hlen

theorem b64url_roundtrip : ∀ (l : List Nat), (∀ b ∈ l, b < 256) →
    b64urlDecode (b64urlEncode l) = l
  | [], _ => rfl
  | [b1], h => by
    have hb1 : b1 < 256 := h b1 (by simp)
    have e1 := b64Index_b64Char (b1 / 4) (by omega)
    have e2 := b64Index_b64Char (b1 % 4 * 16) (by omega)
    simp only [b64urlEncode, b64urlDecode, e1, e2, List.cons.injEq, and_true]
    omega
  | [b1, b2], h => by
    have hb1 : b1 < 256 := h b1 (by simp)
    have hb2 : b2 < 256 := h b2 (by simp)
    have e1 := b64Index_b64Char (b1 / 4) (by omega)
    have e2 := b64Index_b64Char (b1 % 4 * 16 + b2 / 16) (by omega)
    have e3 := b64Index_b64Char (b2 % 16 * 4) (by omega)
    simp only [b64urlEncode, b64urlDecode, e1, e2, e3, List.cons.injEq, and_true]
    constructor <;> omega
  | b1 :: b2 :: b3 :: rest, h => by
    have hb1 : b1 < 256 := h b1 (by simp)
    have hb2 : b2 < 256 := h b2 (by simp)
    have hb3 : b3 < 256 := h b3 (by simp)
    have ih := b64url_roundtrip rest (fun b hb => h b (by simp [hb]))
    have e1 := b64Index_b64Char (b1 / 4) (by omega)
    have e2 := b64Index_b64Char (b1 % 4 * 16 + b2 / 16) (by omega)
    have e3 := b64Index_b64Char (b2 % 16 * 4 + b3 / 64) (by omega)
    have e4 := b64Index_b64Char (b3 % 64) (by omega)
    simp only [b64urlEncode, b64urlDecode, e1, e2, e3, e4, ih, List.cons.injEq,
      and_true]
    refine ⟨by omega, by omega, by omega⟩

theorem b64urlEncode_inj (l1 l2 : List Nat) (h1 : ∀ b ∈ l1, b < 256)
    (h2 : ∀ b ∈ l2, b < 256) (he : b64urlEncode l1 = b64urlEncode l2) : l1 = l2 := by
  have hd := congrArg b64urlDecode he
  rwa [b64url_roundtrip l1 h1, b64url_roundtrip l2 h2] at hd

theorem b64urlEncode_mem : ∀ (l : List Nat), (∀ b ∈ l, b < 256) →
    ∀ c ∈ b64urlEncode l, c ∈ b64urlAlphabet
  | [], _, c, hc => by simp [b64urlEncode] at hc
  | [b1], h, c, hc => by
    have hb1 : b1 < 256 := h b1 (by simp)
    simp only [b64urlEncode, List.mem_cons, List.not_mem_nil, or_false] at hc
    rcases hc with rfl | rfl
    · exact b64Char_mem _ (by omega)
    · exact b64Char_mem _ (by omega)
  | [b1, b2], h, c, hc => by
    have hb1 : b1 < 256 := h b1 (by simp)
    have hb2 : b2 < 256 := h b2 (by simp)
    simp only [b64urlEncode, List.mem_cons, List.not_mem_nil, or_false] at hc
    rcases hc with rfl | rfl | rfl
    · exact b64Char_mem _ (by omega)
    · exact b64Char_mem _ (by omega)
    · exact b64Char_mem _ (by omega)
  | b1 :: b2 :: b3 :: rest, h, c, hc => by
    have hb1 : b1 < 256 := h b1 (by simp)
    have hb2 : b2 < 256 := h b2 (by simp)
    have hb3 : b3 < 256 := h b3 (by simp)
    simp only [b64urlEncode, List.mem_cons] at hc
    rcases hc with rfl | rfl | rfl | rfl | hc
    · exact b64Char_mem _ (by omega)
    · exact b64Char_mem _ (by omega)
    · exact b64Char_mem _ (by omega)
    · exact b64Char_mem _ (by omega)
    · exact b64urlEncode_mem rest (fun b hb => h b (by simp [hb])) c hc

theorem b64urlEncode_ne_nil : ∀ (l : List Nat), l ≠ [] → b64urlEncode l ≠ []
  | [], h => absurd rfl h
  | [b1], _ => by simp [b64urlEncode]
  | [b1, b2], _ => by simp [b64urlEncode]
  | b1 :: b2 :: b3 :: rest, _ => by simp [b64urlEncode]

theorem isUnreserved_ne (c : Char) (hc : isUnreserved c = true) :
    c ≠ '&' ∧ c ≠ '=' ∧ c ≠ '#' ∧ c ≠ '?' ∧ c ≠ '+' ∧ c ≠ '%' := by
  refine ⟨?_, ?_, ?_, ?_, ?_, ?_⟩ <;> rintro rfl <;> exact absurd hc (by decide)

theorem parseQuery_code_state (C S : String)
    (hC : ∀ c ∈ C.data, isUnreserved c = true)
    (hS : ∀ c ∈ S.data, isUnreserved c = true) :
    parseQuery ("code=".data ++ (C.data ++ '&' :: ("state=".data ++ S.data))) =
      [("code", C), ("state", S)] := by
  have hassoc : "code=".data ++ (C.data ++ '&' :: ("state=".data ++ S.data)) =
      ("code=".data ++ C.data) ++ '&' :: ("state=".data ++ S.data) := by
    simp
  have hlit1 : ∀ c ∈ "code=".data, c ≠ '&' := by decide
  have hlit2 : ∀ c ∈ "state=".data, c ≠ '&' := by decide
  have hno1 : ∀ c ∈ "code=".data ++ C.data, c ≠ '&' := by
    intro c hc
    rcases List.mem_append.mp hc with hl | hr
    · exact hlit1 c hl
    · exact (isUnreserved_ne c (hC c hr)).1
  have hno2 : ∀ c ∈ "state=".data ++ S.data, c ≠ '&' := by
    intro c hc
    rcases List.mem_append.mp hc with hl | hr
    · exact hlit2 c hl
    · exact (isUnreserved_ne c (hS c hr)).1
  rw [hassoc, parseQuery, splitOnAmp_append _ _ hno1, splitOnAmp_no_amp _ hno2]
  have he1 : ("code=".data ++ C.data).isEmpty = false := rfl
  have he2 : ("state=".data ++ S.data).isEmpty = false := rfl
  simp only [List.filter_cons, he1, he2, Bool.not_false, if_pos, List.filter_nil,
    List.map_cons, List.map_nil]
  have hseg1 : "code=".data ++ C.data = "code".data ++ '=' :: C.data := rfl
  have hseg2 : "state=".data ++ S.data = "state".data ++ '=' :: S.data := rfl
  rw [hseg1, hseg2, paramKey_split _ _ (by decide), paramVal_split _ _ (by decide),
    paramKey_split _ _ (by decide), paramVal_split _ _ (by decide),
    percentDecodeAux_unreserved _ (by decide), percentDecodeAux_unreserved _ hC,
    percentDecodeAux_unreserved _ (by decide), percentDecodeAux_unreserved _ hS,
    string_mk_data, string_mk_data]

theorem parse_auth_state_mismatch (url expected : String)
    (h : lookupKey (parseQuery (queryOfAux url.data)) "state" ≠ some expected) :
    ∃ m, parseAuthorizationResponse url expected = .error (.auth m none) := by
  simp only [parseAuthorizationResponse]
  by_cases herr :
      ((lookupKey (parseQuery (queryOfAux url.data)) "error").getD "") ≠ ""
  · rw [if_pos herr]
    exact ⟨_, rfl⟩
  · rw [if_neg herr, if_pos h]
    exact ⟨_, rfl⟩

theorem parse_auth_code_missing (url expected : String)
    (h : lookupKey (parseQuery (queryOfAux url.data)) "code" = none) :
    ∃ m, parseAuthorizationResponse url expected = .error (.auth m none) := by
  simp only [parseAuthorizationResponse]
  by_cases herr :
      ((lookupKey (parseQuery (queryOfAux url.data)) "error").getD "") ≠ ""
  · rw [if_pos herr]
    exact ⟨_, rfl⟩
  · rw [if_neg herr]
    by_cases hst : lookupKey (parseQuery (queryOfAux url.data)) "state" ≠ some expected
    · rw [if_pos hst]
      exact ⟨_, rfl⟩
    · rw [if_neg hst, h]
      exact ⟨_, rfl⟩

theorem parse_auth_error_param (url expected err : String)
    (h : lookupKey (parseQuery (queryOfAux url.data)) "error" = some err)
    (hne : err ≠ "") :
    ∃ m, parseAuthorizationResponse url expected = .error (.auth m none) ∧
      strIncludes m err = true ∧
      strIncludes m
        ((lookupKey (parseQuery (queryOfAux url.data)) "error_description").getD "") =
        true := by
  simp only [parseAuthorizationResponse, h, Option.getD_some]
  rw [if_pos hne]
  set desc := (lookupKey (parseQuery (queryOfAux url.data)) "error_description").getD ""
  refine ⟨_, rfl, ?_, ?_⟩
  · have hinf : err.data <:+: ("OAuth error: " ++ err ++ " - " ++ desc).data :=
      ⟨"OAuth error: ".data, " - ".data ++ desc.data, by
        simp [String.data_append, List.append_assoc]⟩
    simpa [strIncludes] using hinf
  · have hinf : desc.data <:+: ("OAuth error: " ++ err ++ " - " ++ desc).data :=
      ⟨("OAuth error: " ++ err ++ " - ").data, [], by
        simp [String.data_append, List.append_assoc]⟩
    simpa [strIncludes] using hinf

theorem parse_roundtrip_unreserved (base C S : String)
    (hbase : ∀ c ∈ base.data, c ≠ '?' ∧ c ≠ '#')
    (hCne : C ≠ "")
    (hC : ∀ c ∈ C.data, isUnreserved c = true)
    (hS : ∀ c ∈ S.data, isUnreserved c = true) :
    parseAuthorizationResponse (base ++ "?code=" ++ C ++ "&state=" ++ S) S = .ok C := by
  have h1 : "?code=".data = '?' :: "code=".data := rfl
  have h2 : "&state=".data = '&' :: "state=".data := rfl
  have hdata : (base ++ "?code=" ++ C ++ "&state=" ++ S).data =
      base.data ++ '?' :: ("code=".data ++ (C.data ++ '&' :: ("state=".data ++ S.data))) := by
    simp [String.data_append, h1, h2]
  have hlit1 : ∀ c ∈ "code=".data, c ≠ '#' := by decide
  have hlit2 : ∀ c ∈ "state=".data, c ≠ '#' := by decide
  have hq : ∀ c ∈ "code=".data ++ (C.data ++ '&' :: ("state=".data ++ S.data)),
      c ≠ '#' := by
    intro c hc
    rcases List.mem_append.mp hc with hl | hr
    · exact hlit1 c hl
    · rcases List.mem_append.mp hr with hl2 | hr2
      · exact (isUnreserved_ne c (hC c hl2)).2.2.1
      · rcases List.mem_cons.mp hr2 with rfl | hr3
        · decide
        · rcases List.mem_append.mp hr3 with hl4 | hr4
          · exact hlit2 c hl4
          · exact (isUnreserved_ne c (hS c hr4)).2.2.1
  simp only [parseAuthorizationResponse]
  rw [hdata, queryOfAux_append _ _ hbase hq, parseQuery_code_state C S hC hS]
  simp [lookupKey, hCne]

/-- C5 counterexample: the round-trip claim as stated fails when the code
contains a query metacharacter. Appending `?code=a&state=b&state=b` to the
base with code C equal to "a&state=b" and state "b": parsing splits the
query at every `&`, returns code "a", not C. -/
theorem C5_parseAuthorizationResponse_counterexample :
    parseAuthorizationResponse
        ("https://app.example/cb" ++ "?code=" ++ "a&state=b" ++ "&state=" ++ "b") "b" =
      .ok "a" ∧
    parseAuthorizationResponse
        ("https://app.example/cb" ++ "?code=" ++ "a&state=b" ++ "&state=" ++ "b") "b" ≠
      .ok "a&state=b" := by
  have h : parseAuthorizationResponse
      ("https://app.example/cb" ++ "?code=" ++ "a&state=b" ++ "&state=" ++ "b") "b" =
      .ok "a" := by rfl
  refine ⟨h, ?_⟩
  rw [h]
  intro hcon
  exact absurd (Except.ok.inj hcon) (by decide)

/-- C5 (amended): the round trip holds for every base URL free of `?` and
`#` and every non-empty code and state over unreserved characters
(alphanumerics and `-`, `.`, `_`, `~`), which percent-decoding and query
splitting leave unchanged; unconditionally, a `state` parameter differing
from the expected state, a truthy `error` parameter (message carrying
`error` and `error_description`), and an absent `code` parameter each
fail with an authentication error. -/
theorem C5_parseAuthorizationResponse_amended (base C S : String)
    (hbase : ∀ c ∈ base.data, c ≠ '?' ∧ c ≠ '#')
    (hCne : C ≠ "")
    (hC : ∀ c ∈ C.data, isUnreserved c = true)
    (hS : ∀ c ∈ S.data, isUnreserved c = true) :
    parseAuthorizationResponse (base ++ "?code=" ++ C ++ "&state=" ++ S) S = .ok C ∧
    (∀ url expected : String,
      lookupKey (parseQuery (queryOfAux url.data)) "state" ≠ some expected →
      ∃ m, parseAuthorizationResponse url expected = .error (.auth m none)) ∧
    (∀ url expected err : String,
      lookupKey (parseQuery (queryOfAux url.data)) "error" = some err → err ≠ "" →
      ∃ m, parseAuthorizationResponse url expected = .error (.auth m none) ∧
        strIncludes m err = true ∧
        strIncludes m
          ((lookupKey (parseQuery (queryOfAux url.data)) "error_description").getD "") =
          true) ∧
    (∀ url expected : String,
      lookupKey (parseQuery (queryOfAux url.data)) "code" = none →
      ∃ m, parseAuthorizationResponse url expected = .error (.auth m none)) :=
  ⟨parse_roundtrip_unreserved base C S hbase hCne hC hS,
   parse_auth_state_mismatch,
   parse_auth_error_param,
   parse_auth_code_missing⟩

/-- C5 witness: the amended claim evaluated at concrete inputs: a clean
round trip, a state mismatch, an OAuth error redirect and a missing code. -/
theorem C5_parseAuthorizationResponse_witness :
    parseAuthorizationResponse
        ("https://app.example/cb" ++ "?code=" ++ "abc123" ++ "&state=" ++ "xyz") "xyz" =
      .ok "abc123" ∧
    (∃ m, parseAuthorizationResponse "https://app.example/cb?code=abc&state=other"
        "xyz" = .error (.auth m none)) ∧
    (∃ m, parseAuthorizationResponse
          "https://app.example/cb?error=access_denied&error_description=denied"
          "xyz" = .error (.auth m none) ∧
      strIncludes m "access_denied" = true ∧
      strIncludes m
        ((lookupKey (parseQuery (queryOfAux
            "https://app.example/cb?error=access_denied&error_description=denied".data))
          "error_description").getD "") = true) ∧
    (∃ m, parseAuthorizationResponse "https://app.example/cb?state=xyz" "xyz" =
      .error (.auth m none)) := by
  have main := C5_parseAuthorizationResponse_amended "https://app.example/cb"
    "abc123" "xyz" (by decide) (by decide) (by decide) (by decide)
  refine ⟨main.1, ?_, ?_, ?_⟩
  · exact main.2.1 "https://app.example/cb?code=abc&state=other" "xyz" (by decide)
  · exact main.2.2.1
      "https://app.example/cb?error=access_denied&error_description=denied" "xyz"
      "access_denied" (by decide) (by decide)
  · exact main.2.2.2 "https://app.example/cb?state=xyz" "xyz" (by decide)

theorem b64urlEncode_ascii (l : List Nat) (h : ∀ b ∈ l, b < 256) :
    ∀ c ∈ b64urlEncode l, c.toNat < 128 :=
  fun c hc => b64urlAlphabet_ascii c (b64urlEncode_mem l h c hc)

/-- C6: for every scopes list, `getAuthorizationUrl` without an explicit
state produces a URL whose query carries `client_id`, `redirect_uri`,
`response_type=code`, a `scope` equal to the comma-joined scopes and a
`state` equal to the returned one; the state is the base64url encoding of
the 32 random bytes, non-empty, drawn from the URL-safe base64url
alphabet, and distinct encodings arise from distinct random bytes. The
ASCII side conditions reflect the byte-level granularity of the embedded
percent-coder; the configuration strings of this component are ASCII. -/
theorem C6_getAuthorizationUrl_spec (cfg : OAuthFlowConfig) (scopes : List String)
    (rnd rnd2 : List Nat)
    (hbase : ∀ c ∈ cfg.apiUrl.data, c ≠ '?' ∧ c ≠ '#')
    (hcid : ∀ c ∈ cfg.clientId.data, c.toNat < 128)
    (hred : ∀ c ∈ cfg.redirectUri.data, c.toNat < 128)
    (hsc : ∀ c ∈ (String.intercalate "," scopes).data, c.toNat < 128)
    (hlen : rnd.length = 32) (hrndB : ∀ b ∈ rnd, b < 256)
    (hlen2 : rnd2.length = 32) (hrnd2B : ∀ b ∈ rnd2, b < 256)
    (hne : rnd ≠ rnd2) :
    getParam (getAuthorizationUrl cfg scopes none rnd).1 "client_id" =
      some cfg.clientId ∧
    getParam (getAuthorizationUrl cfg scopes none rnd).1 "redirect_uri" =
      some cfg.redirectUri ∧
    getParam (getAuthorizationUrl cfg scopes none rnd).1 "response_type" =
      some "code" ∧
    getParam (getAuthorizationUrl cfg scopes none rnd).1 "scope" =
      some (String.intercalate "," scopes) ∧
    getParam (getAuthorizationUrl cfg scopes none rnd).1 "state" =
      some (getAuthorizationUrl cfg scopes none rnd).2 ∧
    (getAuthorizationUrl cfg scopes none rnd).2 = (⟨b64urlEncode rnd⟩ : String) ∧
    (getAuthorizationUrl cfg scopes none rnd).2 ≠ "" ∧
    (∀ c ∈ (getAuthorizationUrl cfg scopes none rnd).2.data, c ∈ b64urlAlphabet) ∧
    (getAuthorizationUrl cfg scopes none rnd2).2 ≠
      (getAuthorizationUrl cfg scopes none rnd).2 := by
  have hst : (getAuthorizationUrl cfg scopes none rnd).2 =
      (⟨b64urlEncode rnd⟩ : String) := rfl
  have hst2 : (getAuthorizationUrl cfg scopes none rnd2).2 =
      (⟨b64urlEncode rnd2⟩ : String) := rfl
  have hurl : (getAuthorizationUrl cfg scopes none rnd).1 =
      cfg.apiUrl ++ "/connect/authorize?" ++
        (⟨serializeQuery [("client_id", cfg.clientId),
          ("redirect_uri", cfg.redirectUri), ("response_type", "code"),
          ("scope", String.intercalate "," scopes),
          ("state", (⟨b64urlEncode rnd⟩ : String))]⟩ : String) := rfl
  have hstate_ascii : ∀ c ∈ (⟨b64urlEncode rnd⟩ : String).data, c.toNat < 128 :=
    fun c hc => b64urlEncode_ascii rnd hrndB c hc
  have hASCII : ∀ p ∈ [("client_id", cfg.clientId),
      ("redirect_uri", cfg.redirectUri), ("response_type", "code"),
      ("scope", String.intercalate "," scopes),
      ("state", (⟨b64urlEncode rnd⟩ : String))],
      (∀ c ∈ p.1.data, c.toNat < 128) ∧ (∀ c ∈ p.2.data, c.toNat < 128) := by
    have hk1 : ∀ c ∈ "client_id".data, c.toNat < 128 := by decide
    have hk2 : ∀ c ∈ "redirect_uri".data, c.toNat < 128 := by decide
    have hk3 : ∀ c ∈ "response_type".data, c.toNat < 128 := by decide
    have hk4 : ∀ c ∈ "scope".data, c.toNat < 128 := by decide
    have hk5 : ∀ c ∈ "state".data, c.toNat < 128 := by decide
    have hv3 : ∀ c ∈ "code".data, c.toNat < 128 := by decide
    intro p hp
    simp only [List.mem_cons, List.not_mem_nil, or_false] at hp
    rcases hp with rfl | rfl | rfl | rfl | rfl
    · exact ⟨hk1, hcid⟩
    · exact ⟨hk2, hred⟩
    · exact ⟨hk3, hv3⟩
    · exact ⟨hk4, hsc⟩
    · exact ⟨hk5, hstate_ascii⟩
  have hpq := parseQuery_serializeQuery _ hASCII
  have hpre : ∀ c ∈ cfg.apiUrl.data ++ "/connect/authorize".data,
      c ≠ '?' ∧ c ≠ '#' := by
    have hlit : ∀ c ∈ "/connect/authorize".data, c ≠ '?' ∧ c ≠ '#' := by decide
    intro c hc
    rcases List.mem_append.mp hc with hl | hr
    · exact hbase c hl
    · exact hlit c hr
  have hdata : (getAuthorizationUrl cfg scopes none rnd).1.data =
      (cfg.apiUrl.data ++ "/connect/authorize".data) ++ '?' ::
        serializeQuery [("client_id", cfg.clientId),
          ("redirect_uri", cfg.redirectUri), ("response_type", "code"),
          ("scope", String.intercalate "," scopes),
          ("state", (⟨b64urlEncode rnd⟩ : String))] := by
    rw [hurl]
    have h1 : "/connect/authorize?".data = "/connect/authorize".data ++ ['?'] := rfl
    simp [String.data_append, h1]
  have hparams : parseQuery
      (queryOfAux (getAuthorizationUrl cfg scopes none rnd).1.data) =
      [("client_id", cfg.clientId), ("redirect_uri", cfg.redirectUri),
       ("response_type", "code"), ("scope", String.intercalate "," scopes),
       ("state", (⟨b64urlEncode rnd⟩ : String))] := by
    rw [hdata, queryOfAux_append _ _ hpre (serializeQuery_no_hash _), hpq]
  have hnn : rnd ≠ [] := by
    rintro rfl
    simp at hlen
  refine ⟨?_, ?_, ?_, ?_, ?_, hst, ?_, ?_, ?_⟩
  · rw [getParam, hparams]
    simp [lookupKey]
  · rw [getParam, hparams]
    simp [lookupKey]
  · rw [getParam, hparams]
    simp [lookupKey]
  · rw [getParam, hparams]
    simp [lookupKey]
  · rw [getParam, hparams, hst]
    simp [lookupKey]
  · rw [hst]
    intro hcon
    exact b64urlEncode_ne_nil rnd hnn (congrArg String.data hcon)
  · rw [hst]
    intro c hc
    exact b64urlEncode_mem rnd hrndB c hc
  · rw [hst, hst2]
    intro hcon
    have hdd : b64urlEncode rnd2 = b64urlEncode rnd := congrArg String.data hcon
    exact hne (b64urlEncode_inj rnd2 rnd hrnd2B hrndB hdd).symm

/-- C6 witness: the authorization-URL properties evaluated with a concrete
configuration, two scopes and two distinct 32-byte random draws. -/
theorem C6_getAuthorizationUrl_witness :
    getParam (getAuthorizationUrl
        { clientId := "cid", clientSecret := "sec", redirectUri := "https://app/cb",
          apiUrl := "https://api.gaugid.com", timeout := 30000 }
        ["a2p:preferences", "a2p:interests"] none (List.replicate 32 0)).1
        "client_id" = some "cid" ∧
    getParam (getAuthorizationUrl
        { clientId := "cid", clientSecret := "sec", redirectUri := "https://app/cb",
          apiUrl := "https://api.gaugid.com", timeout := 30000 }
        ["a2p:preferences", "a2p:interests"] none (List.replicate 32 0)).1
        "redirect_uri" = some "https://app/cb" ∧
    getParam (getAuthorizationUrl
        { clientId := "cid", clientSecret := "sec", redirectUri := "https://app/cb",
          apiUrl := "https://api.gaugid.com", timeout := 30000 }
        ["a2p:preferences", "a2p:interests"] none (List.replicate 32 0)).1
        "response_type" = some "code" ∧
    getParam (getAuthorizationUrl
        { clientId := "cid", clientSecret := "sec", redirectUri := "https://app/cb",
          apiUrl := "https://api.gaugid.com", timeout := 30000 }
        ["a2p:preferences", "a2p:interests"] none (List.replicate 32 0)).1
        "scope" = some (String.intercalate "," ["a2p:preferences", "a2p:interests"]) ∧
    getParam (getAuthorizationUrl
        { clientId := "cid", clientSecret := "sec", redirectUri := "https://app/cb",
          apiUrl := "https://api.gaugid.com", timeout := 30000 }
        ["a2p:preferences", "a2p:interests"] none (List.replicate 32 0)).1
        "state" = some (getAuthorizationUrl
        { clientId := "cid", clientSecret := "sec", redirectUri := "https://app/cb",
          apiUrl := "https://api.gaugid.com", timeout := 30000 }
        ["a2p:preferences", "a2p:interests"] none (List.replicate 32 0)).2 ∧
    (getAuthorizationUrl
        { clientId := "cid", clientSecret := "sec", redirectUri := "https://app/cb",
          apiUrl := "https://api.gaugid.com", timeout := 30000 }
        ["a2p:preferences", "a2p:interests"] none (List.replicate 32 0)).2 =
      (⟨b64urlEncode (List.replicate 32 0)⟩ : String) ∧
    (getAuthorizationUrl
        { clientId := "cid", clientSecret := "sec", redirectUri := "https://app/cb",
          apiUrl := "https://api.gaugid.com", timeout := 30000 }
        ["a2p:preferences", "a2p:interests"] none (List.replicate 32 0)).2 ≠ "" ∧
    (∀ c ∈ (getAuthorizationUrl
        { clientId := "cid", clientSecret := "sec", redirectUri := "https://app/cb",
          apiUrl := "https://api.gaugid.com", timeout := 30000 }
        ["a2p:preferences", "a2p:interests"] none (List.replicate 32 0)).2.data,
      c ∈ b64urlAlphabet) ∧
    (getAuthorizationUrl
        { clientId := "cid", clientSecret := "sec", redirectUri := "https://app/cb",
          apiUrl := "https://api.gaugid.com", timeout := 30000 }
        ["a2p:preferences", "a2p:interests"] none (List.replicate 32 1)).2 ≠
      (getAuthorizationUrl
        { clientId := "cid", clientSecret := "sec", redirectUri := "https://app/cb",
          apiUrl := "https://api.gaugid.com", timeout := 30000 }
        ["a2p:preferences", "a2p:interests"] none (List.replicate 32 0)).2 :=
  C6_getAuthorizationUrl_spec
    { clientId := "cid", clientSecret := "sec", redirectUri := "https://app/cb",
      apiUrl := "https://api.gaugid.com", timeout := 30000 }
    ["a2p:preferences", "a2p:interests"] (List.replicate 32 0) (List.replicate 32 1)
    (by decide) (by decide) (by decide) (by decide) (by decide) (by decide)
    (by decide) (by decide) (by decide)

end Gaugid

